import Mathlib

set_option maxRecDepth 100000

/-!
Shallow embedding of the ByteStream binary protocol parser/serializer
(repository: binary-protocol-parser-and-serializer).

The repository's `src/` directory ships only the public headers
(`bs_protocol.h`, `crc.h`, `parser.h`); the `.c` implementation files are
not present.  The data model (frame structure, ring-buffer structure and
the numeric error codes) is taken directly from `src/src/bs_protocol.h`;
the behaviour of every operation is modelled from the specification
(`spec.md` sections 4.1-4.4 and `SPECS.md`), as noted on each definition.

Bytes are modelled as `Nat` (with `< 256` hypotheses where relevant) and
16-bit registers as `Nat` reduced `% 65536` wherever the C code would
overflow a `uint16_t`.
-/

/-- Error code `BS_SUCCESS`, from `src/src/bs_protocol.h`. -/
def BS_SUCCESS : Int := 0

/-- Error code `BS_ERR_INVALID_ARG`, from `src/src/bs_protocol.h`. -/
def BS_ERR_INVALID_ARG : Int := -1

/-- Error code `BS_ERR_BUFFER_FULL`, from `src/src/bs_protocol.h`. -/
def BS_ERR_BUFFER_FULL : Int := -2

/-- Error code `BS_ERR_NO_SYNC`, from `src/src/bs_protocol.h`. -/
def BS_ERR_NO_SYNC : Int := -3

/-- Error code `BS_ERR_BAD_CRC`, from `src/src/bs_protocol.h`. -/
def BS_ERR_BAD_CRC : Int := -4

/-- Error code `BS_ERR_BAD_LENGTH`, from `src/src/bs_protocol.h`. -/
def BS_ERR_BAD_LENGTH : Int := -5

/-- Error code `BS_ERR_NO_MEMORY`, from `src/src/bs_protocol.h`. -/
def BS_ERR_NO_MEMORY : Int := -6

/-- Decoded frame, mirroring `bs_frame_t` in `src/src/bs_protocol.h`
(the 2-byte sync pattern is a fixed constant and is not stored). -/
structure BsFrame where
  flags : Nat
  length : Nat
  sequence : Nat
  type : Nat
  payload : List Nat
  payload_len : Nat
  crc : Nat
deriving DecidableEq, Repr

/-- Ring-buffer state, mirroring `bs_ringbuf_t` in `src/src/bs_protocol.h`:
underlying storage, total size, write cursor (`head`), read cursor
(`tail`) and an explicit occupied-byte counter (`count`). -/
structure BsRingbuf where
  buffer : List Nat
  size : Nat
  head : Nat
  tail : Nat
  count : Nat
deriving DecidableEq, Repr

/-- Modelled from the spec: one MSB-first CRC shift step with polynomial
0x1021 on a 16-bit register (spec.md section 4.1; the `.c` implementation
of `crc.c` is not in `src/`). -/
def crcStep (c : Nat) : Nat :=
  if c.testBit 15 then ((c <<< 1) ^^^ 0x1021) % 65536 else (c <<< 1) % 65536

/-- Eight consecutive CRC shift steps (one input byte's worth). -/
def crcSteps8 (c : Nat) : Nat :=
  crcStep (crcStep (crcStep (crcStep (crcStep (crcStep (crcStep (crcStep c)))))))

/-- Modelled from the spec: the 256-entry precomputed CRC lookup table,
entry `i` being the result of running the 8 bit steps on register
`i <<< 8` (spec.md section 4.1, "256-entry precomputed table"). -/
def bsCrcTable (i : Nat) : Nat := crcSteps8 (i <<< 8)

/-- Modelled from the spec: `bs_crc16_ccitt` (declared in `src/src/crc.h`,
implementation not in `src/`): table-driven CRC-16/CCITT-FALSE, initial
register 0xFFFF, no final XOR, table indexed by
`(register high byte) XOR (next input byte)` (spec.md section 4.1). -/
def bs_crc16_ccitt (data : List Nat) : Nat :=
  data.foldl (fun c b => ((c <<< 8) ^^^ bsCrcTable ((c >>> 8) ^^^ b)) % 65536) 0xFFFF

/-- Reference bit-at-a-time CRC-16/CCITT-FALSE, written directly from the
published definition (polynomial 0x1021, initial value 0xFFFF, no final
XOR, MSB-first).  This is the definition the spec's words describe, kept
separate so the table-driven implementation can be compared against it. -/
def bsCrc16Reference (data : List Nat) : Nat :=
  data.foldl (fun c b => crcSteps8 (c ^^^ (b <<< 8))) 0xFFFF

/-- Declared big-endian LENGTH field of a raw frame buffer
(bytes at offsets 3 and 4, per the wire format table in spec.md section 6). -/
def bsDeclaredLen (buffer : List Nat) : Nat :=
  256 * buffer.getD 3 0 + buffer.getD 4 0

/-- Modelled from the spec: `bs_parse_frame` (declared in
`src/src/parser.h`, implementation not in `src/`).  Validation gates in
order (spec.md section 4.3): null/zero-length input is INVALID_ARG; the
2-byte sync pattern 0xAA 0x55 must sit at the buffer start, else NO_SYNC;
the declared big-endian LENGTH must satisfy `9 ≤ LENGTH ≤ 1033` (header 7
+ payload up to 1024 + CRC 2, the range given by the BAD_LENGTH taxonomy
entry in spec.md section 7) and `LENGTH ≤ buffer_len`, else BAD_LENGTH;
the CRC over bytes `[0, LENGTH-2)` must equal the trailing big-endian
CRC field, else BAD_CRC; then the fields are extracted. -/
def bs_parse_frame (buffer : List Nat) : Except Int BsFrame :=
  if buffer.isEmpty then .error BS_ERR_INVALID_ARG
  else if buffer.getD 0 0 = 0xAA ∧ buffer.getD 1 0 = 0x55 then
    let L := bsDeclaredLen buffer
    if 9 ≤ L ∧ L ≤ 1033 ∧ L ≤ buffer.length then
      let body := buffer.take (L - 2)
      let stored := 256 * buffer.getD (L - 2) 0 + buffer.getD (L - 1) 0
      if bs_crc16_ccitt body = stored then
        .ok { flags := buffer.getD 2 0, length := L, sequence := buffer.getD 5 0,
              type := buffer.getD 6 0, payload := body.drop 7,
              payload_len := L - 9, crc := stored }
      else .error BS_ERR_BAD_CRC
    else .error BS_ERR_BAD_LENGTH
  else .error BS_ERR_NO_SYNC

/-- Modelled from the spec: `bs_validate_frame` (declared in
`src/src/parser.h`, implementation not in `src/`), a structural subset of
`parse` (spec.md section 4.3): it runs the same gates and reports the
same codes, returning 0 when the frame is valid. -/
def bs_validate_frame (buffer : List Nat) : Int :=
  match bs_parse_frame buffer with
  | .ok _ => BS_SUCCESS
  | .error e => e

/-- Modelled from the spec: the serialization of a frame
(spec.md section 4.4): sync bytes, flags with VERSION = 1 masked into
bits 3-0, big-endian LENGTH `= 7 + payload_len + 2`, sequence, type, the
payload verbatim, then the CRC over everything written so far appended
big-endian. -/
def bs_frame_bytes (type seq flags : Nat) (payload : List Nat) : List Nat :=
  let L := 9 + payload.length
  let body := [0xAA, 0x55, (flags &&& 0xF0) ||| 0x01, L / 256, L % 256, seq, type] ++ payload
  let c := bs_crc16_ccitt body
  body ++ [c / 256, c % 256]

/-- Modelled from the spec: `bs_build_frame` (declared in `SPECS.md`,
implementation not in `src/`): validates `payload_len ≤ 1024` (else
BAD_LENGTH) and that the destination capacity suffices (else
BUFFER_FULL), then emits the serialized frame. -/
def bs_build_frame (type seq flags : Nat) (payload : List Nat) (buffer_max : Nat) :
    Except Int (List Nat) :=
  if 1024 < payload.length then .error BS_ERR_BAD_LENGTH
  else if buffer_max < 9 + payload.length then .error BS_ERR_BUFFER_FULL
  else .ok (bs_frame_bytes type seq flags payload)

/-- Index of the first adjacent `0xAA 0x55` pair in a byte list, if any. -/
def bsFindSync : List Nat → Option Nat
  | a :: b :: rest =>
    if a = 0xAA ∧ b = 0x55 then some 0 else (bsFindSync (b :: rest)).map (· + 1)
  | _ => none

/-- Streaming-parse outcome: a decoded frame, a request for more bytes,
or an error code (spec.md section 4.3, `parse_streaming`). -/
inductive BsStreamResult where
  | frame (fr : BsFrame)
  | needMoreData
  | err (code : Int)
deriving DecidableEq, Repr

/-- Modelled from the spec: the continuation of `parse_streaming` once the
scan has positioned the stream on a sync pattern (spec.md section 4.3,
steps (b)-(d)): peek the LENGTH field (NeedMoreData while fewer than 5
bytes are buffered); an out-of-range LENGTH is a validation failure that
consumes only the 2 sync bytes; with an in-range LENGTH, NeedMoreData
while fewer than LENGTH bytes are buffered, consuming nothing; once
LENGTH bytes are available, run full validation as in `parse` on exactly
those bytes, consuming them on success and only the 2 sync bytes on a
validation failure. -/
def bsProcessFrom (r : List Nat) : BsStreamResult × List Nat :=
  if r.length < 5 then (.needMoreData, r)
  else
    let L := bsDeclaredLen r
    if 9 ≤ L ∧ L ≤ 1033 then
      if r.length < L then (.needMoreData, r)
      else
        match bs_parse_frame (r.take L) with
        | .ok fr => (.frame fr, r.drop L)
        | .error e => (.err e, r.drop 2)
    else (.err BS_ERR_BAD_LENGTH, r.drop 2)

/-- Modelled from the spec: `parse_streaming` (spec.md section 4.3) over
an explicit buffered-byte list, returning the outcome and the bytes left
unconsumed.  Bytes before the first sync pattern are silently consumed as
noise (step (a)); when no sync pair exists the scan consumes the noise,
retaining a trailing lone 0xAA since it may be the first half of a sync
pattern split across arrivals. -/
def bs_parse_streaming (s : List Nat) : BsStreamResult × List Nat :=
  match bsFindSync s with
  | some i => bsProcessFrom (s.drop i)
  | none => (.needMoreData, if s.getLast? = some 0xAA then [0xAA] else [])

/-- True when the list contains an adjacent `0xAA 0x55` pair. -/
def bsHasSyncPair : List Nat → Bool
  | a :: b :: rest => (decide (a = 0xAA) && decide (b = 0x55)) || bsHasSyncPair (b :: rest)
  | _ => false

/-- Modelled from the spec: `bs_ringbuf_init` (SPECS.md Ring Buffer
Module): resets cursors and occupied count to empty over caller-owned
backing storage, without zeroing the memory. -/
def bs_ringbuf_init (storage : List Nat) : BsRingbuf :=
  { buffer := storage, size := storage.length, head := 0, tail := 0, count := 0 }

/-- Modelled from the spec: `bs_ringbuf_available` (SPECS.md): number of
bytes available to read, the explicit `count` field. -/
def bs_ringbuf_available (rb : BsRingbuf) : Nat := rb.count

/-- Modelled from the spec: `bs_ringbuf_free` (SPECS.md): free space,
`capacity - occupied_count`. -/
def bs_ringbuf_free (rb : BsRingbuf) : Nat := rb.size - rb.count

/-- Byte-store loop of the ring-buffer write: stores successive data bytes
at wrapping positions `pos, (pos+1) % size, ...` of the backing list. -/
def bsWriteLoop (buf : List Nat) (size : Nat) (pos : Nat) : List Nat → List Nat
  | [] => buf
  | b :: rest => bsWriteLoop (buf.set pos b) size ((pos + 1) % size) rest

/-- Modelled from the spec: `bs_ringbuf_write` (spec.md section 4.2):
writes as many leading bytes of `data` as fit in remaining free space at
the wrapping write cursor, never overwriting unread data, and returns the
(possibly short) byte count together with the new state. -/
def bs_ringbuf_write (rb : BsRingbuf) (data : List Nat) : Nat × BsRingbuf :=
  let n := min data.length (rb.size - rb.count)
  (n, { rb with buffer := bsWriteLoop rb.buffer rb.size rb.head (data.take n),
                head := (rb.head + n) % rb.size,
                count := rb.count + n })

/-- Modelled from the spec: `bs_ringbuf_read` (spec.md section 4.2):
copies up to `len` available bytes out from the wrapping read cursor,
advances it, and returns the bytes read together with the new state. -/
def bs_ringbuf_read (rb : BsRingbuf) (len : Nat) : List Nat × BsRingbuf :=
  let n := min len rb.count
  ((List.range n).map (fun i => rb.buffer.getD ((rb.tail + i) % rb.size) 0),
   { rb with tail := (rb.tail + n) % rb.size, count := rb.count - n })

/-- Wellformedness of a ring-buffer state: storage length matches `size`,
the capacity is positive, cursors are in range, the occupied count never
exceeds the capacity, and the write cursor sits `count` bytes (mod size)
past the read cursor.  `bs_ringbuf_init` establishes it and every
operation preserves it. -/
abbrev BsRingbuf.WF (rb : BsRingbuf) : Prop :=
  rb.buffer.length = rb.size ∧ 0 < rb.size ∧ rb.head < rb.size ∧ rb.tail < rb.size ∧
    rb.count ≤ rb.size ∧ rb.head = (rb.tail + rb.count) % rb.size

/-- Abstract FIFO content of a ring buffer: the `count` unread bytes in
read order, starting at the read cursor. -/
def BsRingbuf.toList (rb : BsRingbuf) : List Nat :=
  (List.range rb.count).map (fun i => rb.buffer.getD ((rb.tail + i) % rb.size) 0)

/-- One ring-buffer call in an interleaved write/read history. -/
inductive RbOp where
  | write (data : List Nat)
  | read (n : Nat)

/-- Runs a history of ring-buffer calls, returning the final state, the
concatenation of the bytes each write actually accepted, and the
concatenation of the bytes handed out by the reads. -/
def runOps (rb : BsRingbuf) : List RbOp → BsRingbuf × List Nat × List Nat
  | [] => (rb, [], [])
  | RbOp.write data :: rest =>
    let w := bs_ringbuf_write rb data
    let r := runOps w.2 rest
    (r.1, data.take w.1 ++ r.2.1, r.2.2)
  | RbOp.read k :: rest =>
    let rd := bs_ringbuf_read rb k
    let r := runOps rd.2 rest
    (r.1, r.2.1, rd.1 ++ r.2.2)


/-- Demo buffer with correct sync and declared LENGTH 6 (below the
minimum header+crc size). -/
def demoLen6 : List Nat := [0xAA, 0x55, 0x01, 0x00, 0x06, 0x00, 0x00, 0x00, 0x00, 0x00]

/-- Demo buffer with correct sync and declared LENGTH 1034 (payload at
the 1024 limit plus one). -/
def demoLen1034 : List Nat := [0xAA, 0x55, 0x01, 0x04, 0x0A]

/-- Demo frame with declared LENGTH exactly 9 (zero-byte payload) and a
correct CRC. -/
def demoLen9 : List Nat := bs_frame_bytes 0x07 0x07 0x01 []


/-- Demo valid frame A (type 0x10, seq 1, flags 0x11, payload [0x41]). -/
def demoA : List Nat := bs_frame_bytes 0x10 0x01 0x11 [0x41]

/-- Decoded form of `demoA`. -/
def demoFA : BsFrame :=
  { flags := 0x11, length := 10, sequence := 0x01, type := 0x10,
    payload := [0x41], payload_len := 1, crc := 0xEEB2 }

/-- Demo frame B: structurally well-formed (sync, declared LENGTH 10)
but with its stored CRC's low bit flipped, and no spurious sync pair
after its own sync bytes. -/
def demoB : List Nat := [0xAA, 0x55, 0x21, 0x00, 0x0A, 0x02, 0x20, 0x42, 0xAD, 0x99]

/-- Demo valid frame C (type 0x30, seq 3, flags 0x31, payload [0x43]). -/
def demoC : List Nat := bs_frame_bytes 0x30 0x03 0x31 [0x43]

/-- Decoded form of `demoC`. -/
def demoFC : BsFrame :=
  { flags := 0x31, length := 10, sequence := 0x03, type := 0x30,
    payload := [0x43], payload_len := 1, crc := 0x937E }

/-- Adversarial corrupted frame B for the streaming-recovery
counterexample: declared LENGTH 19 with a wrong stored CRC (0x0000), but
whose payload embeds a second sync pattern followed by header bytes that
declare a 21-byte frame reaching exactly to the end of the following
valid frame, with filler bytes 0x3D 0xDC chosen so that embedded frame's
CRC check passes. -/
def cexB : List Nat :=
  [0xAA, 0x55, 0x01, 0x00, 0x13, 0x02, 0x03, 0x00,
   0xAA, 0x55, 0x01, 0x00, 0x15, 0x05, 0x06, 0x3D, 0xDC, 0x00, 0x00]

/-- The bogus embedded frame recovered from `cexB.drop 2 ++ demoC`. -/
def cexFX : BsFrame :=
  { flags := 0x01, length := 21, sequence := 0x05, type := 0x06,
    payload := [0x3D, 0xDC, 0x00, 0x00, 0xAA, 0x55, 0x31, 0x00, 0x0A, 0x03, 0x30, 0x43],
    payload_len := 12, crc := 0x937E }


/-- Demo ring buffer over 4 bytes of caller storage. -/
def rbDemo0 : BsRingbuf := bs_ringbuf_init [0, 0, 0, 0]

/-- Demo ring buffer over 3 bytes of caller storage. -/
def rbDemo1 : BsRingbuf := bs_ringbuf_init [9, 9, 9]

/-! ## Helper lemmas: bitwise arithmetic for the CRC engine -/

lemma xor_mod_two_pow (a b n : Nat) : (a ^^^ b) % 2 ^ n = a % 2 ^ n ^^^ b % 2 ^ n := by
  apply Nat.eq_of_testBit_eq
  intro i
  simp only [Nat.testBit_mod_two_pow, Nat.testBit_xor]
  by_cases h : i < n <;> simp [h]

lemma shiftLeft_xor_distrib (a b k : Nat) : (a ^^^ b) <<< k = (a <<< k) ^^^ (b <<< k) := by
  apply Nat.eq_of_testBit_eq
  intro i
  simp only [Nat.testBit_shiftLeft, Nat.testBit_xor]
  by_cases h : k ≤ i <;> simp [h]

lemma crcStep_lt (c : Nat) : crcStep c < 65536 := by
  unfold crcStep
  by_cases h : c.testBit 15 <;> simp [h] <;> omega

lemma crcStep_eq (c : Nat) :
    crcStep c = ((c <<< 1) % 65536) ^^^ (if c.testBit 15 then 0x1021 else 0) := by
  unfold crcStep
  by_cases h : c.testBit 15
  · simp only [h, if_true]
    rw [show (65536 : Nat) = 2 ^ 16 by norm_num, xor_mod_two_pow]
    norm_num
  · simp [h]

lemma ite_poly_xor (p q : Bool) :
    (if (p.xor q) = true then (4129 : Nat) else 0)
      = (if p = true then (4129 : Nat) else 0) ^^^ (if q = true then (4129 : Nat) else 0) := by
  cases p <;> cases q <;> simp

lemma crcStep_xor (a b : Nat) : crcStep (a ^^^ b) = crcStep a ^^^ crcStep b := by
  rw [crcStep_eq, crcStep_eq, crcStep_eq]
  rw [shiftLeft_xor_distrib, show (65536 : Nat) = 2 ^ 16 by norm_num, xor_mod_two_pow]
  rw [Nat.testBit_xor]
  rw [show (0x1021 : Nat) = 4129 by norm_num, ite_poly_xor]
  simp only [Nat.xor_assoc]
  rw [Nat.xor_comm (if a.testBit 15 = true then (4129:Nat) else 0)
       (b <<< 1 % 2 ^ 16 ^^^ if b.testBit 15 = true then (4129:Nat) else 0)]
  simp only [Nat.xor_assoc]
  congr 2
  exact Nat.xor_comm _ _

lemma crcSteps8_xor (a b : Nat) : crcSteps8 (a ^^^ b) = crcSteps8 a ^^^ crcSteps8 b := by
  simp [crcSteps8, crcStep_xor]

lemma crcStep_double (x : Nat) (h : x < 32768) : crcStep x = 2 * x := by
  have hb : x.testBit 15 = false := Nat.testBit_lt_two_pow (by norm_num; omega)
  unfold crcStep
  rw [hb]
  simp only [Bool.false_eq_true, if_false, Nat.shiftLeft_eq, pow_one]
  omega

lemma crcSteps8_small (x : Nat) (h : x < 256) : crcSteps8 x = x * 256 := by
  rw [crcSteps8]
  rw [crcStep_double x (by omega)]
  rw [crcStep_double (2 * x) (by omega)]
  rw [crcStep_double (2 * (2 * x)) (by omega)]
  rw [crcStep_double (2 * (2 * (2 * x))) (by omega)]
  rw [crcStep_double (2 * (2 * (2 * (2 * x)))) (by omega)]
  rw [crcStep_double (2 * (2 * (2 * (2 * (2 * x))))) (by omega)]
  rw [crcStep_double (2 * (2 * (2 * (2 * (2 * (2 * x)))))) (by omega)]
  rw [crcStep_double (2 * (2 * (2 * (2 * (2 * (2 * (2 * x))))))) (by omega)]
  ring

lemma crcSteps8_lt (x : Nat) : crcSteps8 x < 65536 := crcStep_lt _

lemma xor_byte_decomp (c b : Nat) :
    c ^^^ (b <<< 8) = (((c >>> 8) ^^^ b) <<< 8) ^^^ (c % 256) := by
  apply Nat.eq_of_testBit_eq
  intro i
  rw [show (256 : Nat) = 2 ^ 8 by norm_num]
  simp only [Nat.testBit_xor, Nat.testBit_shiftLeft, Nat.testBit_shiftRight,
    Nat.testBit_mod_two_pow]
  by_cases h : 8 ≤ i
  · have h2 : ¬i < 8 := by omega
    have h3 : 8 + (i - 8) = i := by omega
    simp [h, h2, h3, Bool.xor_comm]
  · have h2 : i < 8 := by omega
    simp [h, h2]

lemma byteStep_eq (c b : Nat) :
    ((c <<< 8) ^^^ bsCrcTable ((c >>> 8) ^^^ b)) % 65536 = crcSteps8 (c ^^^ (b <<< 8)) := by
  rw [xor_byte_decomp, crcSteps8_xor, crcSteps8_small (c % 256) (by omega)]
  rw [show (65536 : Nat) = 2 ^ 16 by norm_num, xor_mod_two_pow]
  rw [show bsCrcTable ((c >>> 8) ^^^ b) % 2 ^ 16 = bsCrcTable ((c >>> 8) ^^^ b) from
    Nat.mod_eq_of_lt (by rw [show (2:Nat) ^ 16 = 65536 by norm_num]; exact crcSteps8_lt _)]
  rw [show c <<< 8 = c * 256 by rw [Nat.shiftLeft_eq]]
  rw [show (2 : Nat) ^ 16 = 256 * 256 by norm_num]
  rw [Nat.mul_mod_mul_right]
  rw [bsCrcTable]
  exact Nat.xor_comm _ _

lemma crc_fold_eq (l : List Nat) :
    ∀ c : Nat, l.foldl (fun c b => ((c <<< 8) ^^^ bsCrcTable ((c >>> 8) ^^^ b)) % 65536) c
      = l.foldl (fun c b => crcSteps8 (c ^^^ (b <<< 8))) c := by
  induction l with
  | nil => intro c; rfl
  | cons b t ih =>
    intro c
    simp only [List.foldl_cons]
    rw [byteStep_eq, ih]

/-! ## Claim theorems C2 and C9 -/

/-- C2: `bs_crc16_ccitt` computes CRC-16/CCITT-FALSE: the table-driven
implementation agrees with the bit-at-a-time reference (polynomial
0x1021, initial register 0xFFFF, no final XOR, MSB-first) on every input;
the empty input yields the unmodified initial register 0xFFFF; every
single-byte input equals the published per-byte formula; and the standard
check string "123456789" yields the published check value 0x29B1. -/
theorem c2_crc16_ccitt_false :
    (∀ data : List Nat, bs_crc16_ccitt data = bsCrc16Reference data)
    ∧ bs_crc16_ccitt [] = 0xFFFF
    ∧ (∀ b : Nat, bs_crc16_ccitt [b] = crcSteps8 (0xFFFF ^^^ (b <<< 8)))
    ∧ bs_crc16_ccitt [0x31,0x32,0x33,0x34,0x35,0x36,0x37,0x38,0x39] = 0x29B1 := by
  exact ⟨fun data => crc_fold_eq data 0xFFFF, rfl, fun b => crc_fold_eq [b] 0xFFFF, by decide⟩

/-- C9: the public result codes are numerically fixed and pairwise
distinct: `BS_SUCCESS = 0` and the six failure codes are -1 through -6
respectively. -/
theorem c9_error_codes :
    BS_SUCCESS = 0 ∧ BS_ERR_INVALID_ARG = -1 ∧ BS_ERR_BUFFER_FULL = -2
    ∧ BS_ERR_NO_SYNC = -3 ∧ BS_ERR_BAD_CRC = -4 ∧ BS_ERR_BAD_LENGTH = -5
    ∧ BS_ERR_NO_MEMORY = -6
    ∧ ([BS_SUCCESS, BS_ERR_INVALID_ARG, BS_ERR_BUFFER_FULL, BS_ERR_NO_SYNC,
        BS_ERR_BAD_CRC, BS_ERR_BAD_LENGTH, BS_ERR_NO_MEMORY] : List Int).Nodup := by
  refine ⟨rfl, rfl, rfl, rfl, rfl, rfl, rfl, by decide⟩

/-! ## Helper lemmas: the serialized frame and the flat parser -/

lemma bs_frame_bytes_normal (t s f : Nat) (p : List Nat) :
    bs_frame_bytes t s f p =
      ([0xAA, 0x55, (f &&& 0xF0) ||| 0x01, (9 + p.length) / 256, (9 + p.length) % 256, s, t] ++ p)
        ++ [bs_crc16_ccitt
              ([0xAA, 0x55, (f &&& 0xF0) ||| 0x01, (9 + p.length) / 256, (9 + p.length) % 256,
                s, t] ++ p) / 256,
            bs_crc16_ccitt
              ([0xAA, 0x55, (f &&& 0xF0) ||| 0x01, (9 + p.length) / 256, (9 + p.length) % 256,
                s, t] ++ p) % 256] := rfl

lemma parse_frame_bytes (t s f : Nat) (p : List Nat) (hp : p.length ≤ 1024) :
    bs_parse_frame (bs_frame_bytes t s f p) =
      .ok { flags := (f &&& 0xF0) ||| 0x01, length := 9 + p.length, sequence := s, type := t,
            payload := p, payload_len := p.length,
            crc := bs_crc16_ccitt
              ([0xAA, 0x55, (f &&& 0xF0) ||| 0x01, (9 + p.length) / 256, (9 + p.length) % 256,
                s, t] ++ p) } := by
  set fw := (f &&& 0xF0) ||| 0x01 with hfw
  set n := p.length with hn
  set L := 9 + n with hL
  set hdr : List Nat := [0xAA, 0x55, fw, L / 256, L % 256, s, t] with hhdr
  set c := bs_crc16_ccitt (hdr ++ p) with hc
  have hbytes : bs_frame_bytes t s f p = (hdr ++ p) ++ [c / 256, c % 256] := rfl
  have hbodylen : (hdr ++ p).length = L - 2 := by
    simp [hhdr, hL]
    omega
  have hlen : ((hdr ++ p) ++ [c / 256, c % 256]).length = L := by
    simp [hhdr, hL]
    omega
  have hne : ¬((hdr ++ p) ++ [c / 256, c % 256]).isEmpty = true := by
    simp [hhdr]
  have hget0 : ((hdr ++ p) ++ [c / 256, c % 256]).getD 0 0 = 0xAA := by simp [hhdr]
  have hget1 : ((hdr ++ p) ++ [c / 256, c % 256]).getD 1 0 = 0x55 := by simp [hhdr]
  have hget2 : ((hdr ++ p) ++ [c / 256, c % 256]).getD 2 0 = fw := by simp [hhdr]
  have hget3 : ((hdr ++ p) ++ [c / 256, c % 256]).getD 3 0 = L / 256 := by simp [hhdr]
  have hget4 : ((hdr ++ p) ++ [c / 256, c % 256]).getD 4 0 = L % 256 := by simp [hhdr]
  have hget5 : ((hdr ++ p) ++ [c / 256, c % 256]).getD 5 0 = s := by simp [hhdr]
  have hget6 : ((hdr ++ p) ++ [c / 256, c % 256]).getD 6 0 = t := by simp [hhdr]
  have hdecl : bsDeclaredLen ((hdr ++ p) ++ [c / 256, c % 256]) = L := by
    rw [bsDeclaredLen, hget3, hget4]
    exact Nat.div_add_mod L 256
  have htake : ((hdr ++ p) ++ [c / 256, c % 256]).take (L - 2) = hdr ++ p :=
    List.take_left' hbodylen
  have hgetc1 : ((hdr ++ p) ++ [c / 256, c % 256]).getD (L - 2) 0 = c / 256 := by
    rw [List.getD_append_right _ _ _ _ (by omega), hbodylen]
    simp
  have hgetc2 : ((hdr ++ p) ++ [c / 256, c % 256]).getD (L - 1) 0 = c % 256 := by
    rw [List.getD_append_right _ _ _ _ (by omega), hbodylen]
    have : L - 1 - (L - 2) = 1 := by omega
    rw [this]
    simp
  rw [hbytes, bs_parse_frame]
  rw [if_neg (by simp [hne]), if_pos ⟨hget0, hget1⟩]
  simp only [hdecl]
  rw [if_pos (by refine ⟨by omega, by omega, by rw [hlen]⟩)]
  simp only [htake, hgetc1, hgetc2]
  rw [if_pos (by rw [← hc]; omega)]
  simp only [hget2, hget5, hget6]
  rw [List.drop_left' (show ([0xAA, 0x55, fw, L / 256, L % 256, s, t] : List Nat).length = 7
        from rfl)]
  rw [show 256 * (c / 256) + c % 256 = c from Nat.div_add_mod c 256]
  rw [show L - 9 = n by omega]

lemma flags_nibble (f : Nat) (h1 : f < 256) (h2 : f &&& 0x0F = 1) :
    (f &&& 0xF0) ||| 0x01 = f := by
  have h : ∀ g, g < 256 → g &&& 0x0F = 1 → (g &&& 0xF0) ||| 0x01 = g := by decide
  exact h f h1 h2

lemma isEmpty_false_of_ne_nil (l : List Nat) (h : l ≠ []) : ¬(l.isEmpty = true) := by
  cases l with
  | nil => exact absurd rfl h
  | cons a t => simp

/-- C1 (amended): for every tuple (with byte-sized flags and payload at
most 1024 bytes), building a frame with `bs_build_frame` and parsing the
produced bytes with `bs_parse_frame` succeeds and reconstructs the type,
sequence and payload bytes identical to the inputs; the parsed flags
equal `(flags AND 0xF0) OR 0x01` — the builder masks VERSION = 1 into
bits 3-0 of the emitted flags byte — and hence equal the input flags
exactly when the flags' VERSION nibble (bits 3-0) equals 1. -/
theorem c1_build_parse_roundtrip (t s f : Nat) (p : List Nat) (buffer_max : Nat)
    (hf : f < 256) (hp : p.length ≤ 1024) (hb : 9 + p.length ≤ buffer_max) :
    bs_build_frame t s f p buffer_max = .ok (bs_frame_bytes t s f p)
    ∧ ∃ fr : BsFrame, bs_parse_frame (bs_frame_bytes t s f p) = .ok fr
        ∧ fr.type = t ∧ fr.sequence = s ∧ fr.payload = p ∧ fr.payload_len = p.length
        ∧ fr.flags = (f &&& 0xF0) ||| 0x01
        ∧ (f &&& 0x0F = 1 → fr.flags = f) := by
  constructor
  · rw [bs_build_frame, if_neg (by omega), if_neg (by omega)]
  · exact ⟨_, parse_frame_bytes t s f p hp, rfl, rfl, rfl, rfl, rfl,
      fun hv => flags_nibble f hf hv⟩

/-- C1 witness: two concrete round trips through build and parse, one
with VERSION nibble 1 (flags come back identical) and one with VERSION
nibble 2 (flags come back with the low nibble forced to 1). -/
theorem c1_roundtrip_witness :
    (bs_build_frame 0x10 0x42 0x11 [0x48] 100 = .ok (bs_frame_bytes 0x10 0x42 0x11 [0x48])
     ∧ ∃ fr : BsFrame, bs_parse_frame (bs_frame_bytes 0x10 0x42 0x11 [0x48]) = .ok fr
        ∧ fr.type = 0x10 ∧ fr.sequence = 0x42 ∧ fr.payload = [0x48]
        ∧ fr.payload_len = [0x48].length
        ∧ fr.flags = (0x11 &&& 0xF0) ||| 0x01
        ∧ (0x11 &&& 0x0F = 1 → fr.flags = 0x11))
    ∧ (bs_build_frame 0x07 0x05 0xA2 [0x4B] 100 = .ok (bs_frame_bytes 0x07 0x05 0xA2 [0x4B])
     ∧ ∃ fr : BsFrame, bs_parse_frame (bs_frame_bytes 0x07 0x05 0xA2 [0x4B]) = .ok fr
        ∧ fr.type = 0x07 ∧ fr.sequence = 0x05 ∧ fr.payload = [0x4B]
        ∧ fr.payload_len = [0x4B].length
        ∧ fr.flags = (0xA2 &&& 0xF0) ||| 0x01
        ∧ (0xA2 &&& 0x0F = 1 → fr.flags = 0xA2)) :=
  ⟨c1_build_parse_roundtrip 0x10 0x42 0x11 [0x48] 100 (by decide) (by decide) (by decide),
   c1_build_parse_roundtrip 0x07 0x05 0xA2 [0x4B] 100 (by decide) (by decide) (by decide)⟩

/-- C1 counterexample: with flags 0x00 (VERSION nibble 0) the parsed
flags byte is 0x01, not the input 0x00, refuting the claim for every
tuple: the builder forces the VERSION nibble to 1. -/
theorem c1_flags_counterexample :
    (bs_build_frame 0 0 0 [] 9).toOption = some (bs_frame_bytes 0 0 0 [])
    ∧ (bs_parse_frame (bs_frame_bytes 0 0 0 [])).toOption.map BsFrame.flags = some 1
    ∧ (1 : Nat) ≠ 0 := by
  decide

lemma parse_sync_not_bad_length (buf : List Nat)
    (h0 : buf.getD 0 0 = 0xAA) (h1 : buf.getD 1 0 = 0x55)
    (hgate : 9 ≤ bsDeclaredLen buf ∧ bsDeclaredLen buf ≤ 1033 ∧ bsDeclaredLen buf ≤ buf.length) :
    bs_parse_frame buf = .error BS_ERR_BAD_CRC ∨ ∃ fr, bs_parse_frame buf = .ok fr := by
  have hne : ¬(buf.isEmpty = true) := by
    cases buf with
    | nil => simp at h0
    | cons a t => simp
  simp only [bs_parse_frame, if_neg hne, if_pos (And.intro h0 h1), if_pos hgate]
  by_cases hcrc : bs_crc16_ccitt (buf.take (bsDeclaredLen buf - 2))
      = 256 * buf.getD (bsDeclaredLen buf - 2) 0 + buf.getD (bsDeclaredLen buf - 1) 0
  · right
    exact ⟨_, by rw [if_pos hcrc]⟩
  · left
    rw [if_neg hcrc]

lemma parse_sync_bad_length (buf : List Nat)
    (h0 : buf.getD 0 0 = 0xAA) (h1 : buf.getD 1 0 = 0x55)
    (hgate : ¬(9 ≤ bsDeclaredLen buf ∧ bsDeclaredLen buf ≤ 1033
                ∧ bsDeclaredLen buf ≤ buf.length)) :
    bs_parse_frame buf = .error BS_ERR_BAD_LENGTH := by
  have hne : ¬(buf.isEmpty = true) := by
    cases buf with
    | nil => simp at h0
    | cons a t => simp
  simp only [bs_parse_frame, if_neg hne, if_pos (And.intro h0 h1), if_neg hgate]

/-- C3: with a correct sync pattern in place, `bs_parse_frame` and
`bs_validate_frame` return BAD_LENGTH exactly when the declared
big-endian LENGTH field is outside `[9, 1033]` or exceeds the supplied
buffer length; concretely LENGTH 6 and LENGTH 1034 yield BAD_LENGTH and
a LENGTH-9 zero-payload frame passes the length gate (and validates). -/
theorem c3_bad_length_gate :
    (∀ buf : List Nat, buf.getD 0 0 = 0xAA → buf.getD 1 0 = 0x55 →
      ((bs_parse_frame buf = .error BS_ERR_BAD_LENGTH
          ↔ ¬(9 ≤ bsDeclaredLen buf ∧ bsDeclaredLen buf ≤ 1033
                ∧ bsDeclaredLen buf ≤ buf.length))
        ∧ (bs_validate_frame buf = BS_ERR_BAD_LENGTH
          ↔ ¬(9 ≤ bsDeclaredLen buf ∧ bsDeclaredLen buf ≤ 1033
                ∧ bsDeclaredLen buf ≤ buf.length))))
    ∧ bs_validate_frame demoLen6 = BS_ERR_BAD_LENGTH
    ∧ bs_validate_frame demoLen1034 = BS_ERR_BAD_LENGTH
    ∧ bs_validate_frame demoLen9 = BS_SUCCESS := by
  refine ⟨?_, by decide, by decide, by decide⟩
  intro buf h0 h1
  by_cases hgate : 9 ≤ bsDeclaredLen buf ∧ bsDeclaredLen buf ≤ 1033
      ∧ bsDeclaredLen buf ≤ buf.length
  · rcases parse_sync_not_bad_length buf h0 h1 hgate with h | ⟨fr, h⟩
    · constructor
      · rw [h]
        constructor
        · intro hbad
          exact absurd hbad (by simp [BS_ERR_BAD_CRC, BS_ERR_BAD_LENGTH])
        · intro hg
          exact absurd hgate hg
      · rw [bs_validate_frame, h]
        constructor
        · intro hbad
          exact absurd hbad (by simp [BS_ERR_BAD_CRC, BS_ERR_BAD_LENGTH])
        · intro hg
          exact absurd hgate hg
    · constructor
      · rw [h]
        constructor
        · intro hbad
          exact absurd hbad (by simp)
        · intro hg
          exact absurd hgate hg
      · rw [bs_validate_frame, h]
        constructor
        · intro hbad
          exact absurd hbad (by simp [BS_SUCCESS, BS_ERR_BAD_LENGTH])
        · intro hg
          exact absurd hgate hg
  · have h := parse_sync_bad_length buf h0 h1 hgate
    refine ⟨⟨fun _ => hgate, fun _ => h⟩, ⟨fun _ => hgate, fun _ => ?_⟩⟩
    rw [bs_validate_frame, h]

/-- C3 witness: the general biconditional instantiated at the concrete
LENGTH-6 buffer. -/
theorem c3_witness :
    bs_parse_frame demoLen6 = .error BS_ERR_BAD_LENGTH
      ↔ ¬(9 ≤ bsDeclaredLen demoLen6 ∧ bsDeclaredLen demoLen6 ≤ 1033
            ∧ bsDeclaredLen demoLen6 ≤ demoLen6.length) :=
  (c3_bad_length_gate.1 demoLen6 (by decide) (by decide)).1

lemma parse_no_sync (buf : List Nat) (hne : buf ≠ [])
    (hns : ¬(buf.getD 0 0 = 0xAA ∧ buf.getD 1 0 = 0x55)) :
    bs_parse_frame buf = .error BS_ERR_NO_SYNC := by
  simp only [bs_parse_frame, if_neg (isEmpty_false_of_ne_nil buf hne), if_neg hns]

/-- C4 (amended): the gates run in order sync, length, checksum — every
non-empty buffer that does not begin with 0xAA 0x55 yields NO_SYNC
regardless of its remaining contents (the empty buffer yields INVALID_ARG
instead), and BAD_CRC is reported only when the sync and length gates
have already passed. -/
theorem c4_gate_order :
    bs_parse_frame [] = .error BS_ERR_INVALID_ARG
    ∧ (∀ buf : List Nat, buf ≠ [] → ¬(buf.getD 0 0 = 0xAA ∧ buf.getD 1 0 = 0x55) →
        bs_parse_frame buf = .error BS_ERR_NO_SYNC)
    ∧ (∀ buf : List Nat, bs_parse_frame buf = .error BS_ERR_BAD_CRC →
        (buf.getD 0 0 = 0xAA ∧ buf.getD 1 0 = 0x55)
        ∧ 9 ≤ bsDeclaredLen buf ∧ bsDeclaredLen buf ≤ 1033
        ∧ bsDeclaredLen buf ≤ buf.length) := by
  refine ⟨rfl, parse_no_sync, ?_⟩
  intro buf h
  by_cases h1 : buf = []
  · rw [h1] at h
    exact absurd h (by simp [bs_parse_frame, BS_ERR_INVALID_ARG, BS_ERR_BAD_CRC])
  · by_cases h2 : buf.getD 0 0 = 0xAA ∧ buf.getD 1 0 = 0x55
    · by_cases h3 : 9 ≤ bsDeclaredLen buf ∧ bsDeclaredLen buf ≤ 1033
          ∧ bsDeclaredLen buf ≤ buf.length
      · exact ⟨h2, h3⟩
      · rw [parse_sync_bad_length buf h2.1 h2.2 h3] at h
        exact absurd h (by simp [BS_ERR_BAD_LENGTH, BS_ERR_BAD_CRC])
    · rw [parse_no_sync buf h1 h2] at h
      exact absurd h (by simp [BS_ERR_NO_SYNC, BS_ERR_BAD_CRC])

/-- C4 witness: the NO_SYNC branch instantiated at a concrete one-byte
buffer without the sync pattern. -/
theorem c4_witness : bs_parse_frame [0x00] = .error BS_ERR_NO_SYNC :=
  c4_gate_order.2.1 [0x00] (by decide) (by decide)

/-- C4 counterexample: the empty buffer does not begin with 0xAA 0x55 yet
returns INVALID_ARG, not NO_SYNC, refuting "for every buffer". -/
theorem c4_empty_counterexample :
    bs_parse_frame [] = .error BS_ERR_INVALID_ARG ∧ BS_ERR_INVALID_ARG ≠ BS_ERR_NO_SYNC :=
  ⟨rfl, by decide⟩

/-! ## Helper lemmas: the streaming parser -/

lemma sync_shape (l : List Nat) (h0 : l.getD 0 0 = 0xAA) (h1 : l.getD 1 0 = 0x55) :
    ∃ t, l = 0xAA :: 0x55 :: t := by
  cases l with
  | nil => simp at h0
  | cons a l1 =>
    cases l1 with
    | nil => simp [List.getD] at h1
    | cons b t =>
      have ha : a = 0xAA := by simpa using h0
      have hb : b = 0x55 := by simpa using h1
      exact ⟨t, by rw [ha, hb]⟩

lemma findSync_sync (t : List Nat) : bsFindSync (0xAA :: 0x55 :: t) = some 0 := by
  rw [bsFindSync, if_pos ⟨rfl, rfl⟩]

lemma findSync_skip (g t : List Nat) (hg : bsHasSyncPair g = false) :
    bsFindSync (g ++ 0xAA :: 0x55 :: t) = some g.length := by
  induction g with
  | nil => simpa using findSync_sync t
  | cons a g' ih =>
    cases g' with
    | nil =>
      have hcond : ¬(a = 0xAA ∧ (0xAA : Nat) = 0x55) := by simp
      simp only [List.cons_append, List.nil_append]
      rw [bsFindSync, if_neg hcond, findSync_sync]
      simp
    | cons b g'' =>
      rw [bsHasSyncPair] at hg
      have hpair := Bool.or_eq_false_iff.mp hg
      have hcond : ¬(a = 0xAA ∧ b = 0x55) := by
        intro hab
        rw [hab.1, hab.2] at hpair
        simp at hpair
      have ih2 := ih hpair.2
      simp only [List.cons_append] at ih2 ⊢
      rw [bsFindSync, if_neg hcond, ih2]
      simp

lemma processFrom_exact (F rest : List Nat) (fr : BsFrame)
    (hlen : F.length = bsDeclaredLen F) (hlo : 9 ≤ bsDeclaredLen F)
    (hhi : bsDeclaredLen F ≤ 1033)
    (hok : bs_parse_frame F = .ok fr) :
    bsProcessFrom (F ++ rest) = (.frame fr, rest) := by
  have hF9 : 9 ≤ F.length := by omega
  have hdecl : bsDeclaredLen (F ++ rest) = bsDeclaredLen F := by
    rw [bsDeclaredLen, bsDeclaredLen,
      List.getD_append _ _ _ _ (by omega), List.getD_append _ _ _ _ (by omega)]
  have htake : (F ++ rest).take (bsDeclaredLen F) = F := List.take_left' hlen
  have hdrop : (F ++ rest).drop (bsDeclaredLen F) = rest := List.drop_left' hlen
  rw [bsProcessFrom]
  rw [if_neg (by rw [List.length_append]; omega)]
  simp only [hdecl]
  rw [if_pos ⟨hlo, hhi⟩]
  rw [if_neg (by rw [List.length_append]; omega)]
  rw [htake, hok, hdrop]

lemma processFrom_badcrc (F rest : List Nat)
    (hlen : F.length = bsDeclaredLen F) (hlo : 9 ≤ bsDeclaredLen F)
    (hhi : bsDeclaredLen F ≤ 1033)
    (hbad : bs_parse_frame F = .error BS_ERR_BAD_CRC) :
    bsProcessFrom (F ++ rest) = (.err BS_ERR_BAD_CRC, F.drop 2 ++ rest) := by
  have hF9 : 9 ≤ F.length := by omega
  have hdecl : bsDeclaredLen (F ++ rest) = bsDeclaredLen F := by
    rw [bsDeclaredLen, bsDeclaredLen,
      List.getD_append _ _ _ _ (by omega), List.getD_append _ _ _ _ (by omega)]
  have htake : (F ++ rest).take (bsDeclaredLen F) = F := List.take_left' hlen
  have hdrop2 : (F ++ rest).drop 2 = F.drop 2 ++ rest :=
    List.drop_append_of_le_length (by omega)
  rw [bsProcessFrom]
  rw [if_neg (by rw [List.length_append]; omega)]
  simp only [hdecl]
  rw [if_pos ⟨hlo, hhi⟩]
  rw [if_neg (by rw [List.length_append]; omega)]
  rw [htake, hbad, hdrop2]

lemma streaming_exact_at_start (F rest : List Nat) (fr : BsFrame)
    (h0 : F.getD 0 0 = 0xAA) (h1 : F.getD 1 0 = 0x55)
    (hlen : F.length = bsDeclaredLen F) (hlo : 9 ≤ bsDeclaredLen F)
    (hhi : bsDeclaredLen F ≤ 1033)
    (hok : bs_parse_frame F = .ok fr) :
    bs_parse_streaming (F ++ rest) = (.frame fr, rest) := by
  have hcore := processFrom_exact F rest fr hlen hlo hhi hok
  rcases sync_shape F h0 h1 with ⟨t, rfl⟩
  simp only [List.cons_append] at hcore ⊢
  rw [bs_parse_streaming, findSync_sync]
  exact hcore

lemma streaming_badcrc_at_start (F rest : List Nat)
    (h0 : F.getD 0 0 = 0xAA) (h1 : F.getD 1 0 = 0x55)
    (hlen : F.length = bsDeclaredLen F) (hlo : 9 ≤ bsDeclaredLen F)
    (hhi : bsDeclaredLen F ≤ 1033)
    (hbad : bs_parse_frame F = .error BS_ERR_BAD_CRC) :
    bs_parse_streaming (F ++ rest) = (.err BS_ERR_BAD_CRC, F.drop 2 ++ rest) := by
  have hcore := processFrom_badcrc F rest hlen hlo hhi hbad
  rcases sync_shape F h0 h1 with ⟨t, rfl⟩
  simp only [List.cons_append, List.drop_succ_cons, List.drop_zero] at hcore ⊢
  rw [bs_parse_streaming, findSync_sync]
  exact hcore

lemma streaming_skip_exact (g F : List Nat) (fr : BsFrame)
    (hg : bsHasSyncPair g = false)
    (h0 : F.getD 0 0 = 0xAA) (h1 : F.getD 1 0 = 0x55)
    (hlen : F.length = bsDeclaredLen F) (hlo : 9 ≤ bsDeclaredLen F)
    (hhi : bsDeclaredLen F ≤ 1033)
    (hok : bs_parse_frame F = .ok fr) :
    bs_parse_streaming (g ++ F) = (.frame fr, []) := by
  have hcore := processFrom_exact F [] fr hlen hlo hhi hok
  rw [List.append_nil] at hcore
  rcases sync_shape F h0 h1 with ⟨t, rfl⟩
  rw [bs_parse_streaming, findSync_skip g t hg]
  show bsProcessFrom (List.drop g.length (g ++ 0xAA :: 0x55 :: t)) = (.frame fr, [])
  rw [List.drop_left]
  exact hcore

lemma processFrom_need (s : List Nat)
    (h2 : s.length < 5 ∨ (9 ≤ bsDeclaredLen s ∧ bsDeclaredLen s ≤ 1033
            ∧ s.length < bsDeclaredLen s)) :
    bsProcessFrom s = (.needMoreData, s) := by
  rw [bsProcessFrom]
  by_cases hl : s.length < 5
  · rw [if_pos hl]
  · obtain ⟨hlo, hhi, hlt⟩ := h2.resolve_left hl
    rw [if_neg hl, if_pos ⟨hlo, hhi⟩, if_pos hlt]

/-- C5: when the buffered bytes hold a sync pattern but fewer bytes than
the frame's declared LENGTH past it (or even too few to read the LENGTH
field), the streaming parser returns NeedMoreData and consumes nothing of
the frame: if the source begins with the sync pattern the entire buffer
is left unconsumed, and if noise bytes precede the sync pattern every
byte from the sync pattern onward is left unconsumed (the noise is
silently dropped by the sync scan, per the spec's step (a)), so a
subsequent call after more bytes arrive sees all of the frame's bytes. -/
theorem c5_partial_frame_wait :
    (∀ s : List Nat, s.getD 0 0 = 0xAA → s.getD 1 0 = 0x55 →
      (s.length < 5 ∨ (9 ≤ bsDeclaredLen s ∧ bsDeclaredLen s ≤ 1033
          ∧ s.length < bsDeclaredLen s)) →
      bs_parse_streaming s = (.needMoreData, s))
    ∧ (∀ g s : List Nat, bsHasSyncPair g = false →
        s.getD 0 0 = 0xAA → s.getD 1 0 = 0x55 →
        (s.length < 5 ∨ (9 ≤ bsDeclaredLen s ∧ bsDeclaredLen s ≤ 1033
            ∧ s.length < bsDeclaredLen s)) →
        bs_parse_streaming (g ++ s) = (.needMoreData, s)) := by
  constructor
  · intro s h0 h1 h2
    have hcore := processFrom_need s h2
    rcases sync_shape s h0 h1 with ⟨t, rfl⟩
    rw [bs_parse_streaming, findSync_sync]
    exact hcore
  · intro g s hg h0 h1 h2
    have hcore := processFrom_need s h2
    rcases sync_shape s h0 h1 with ⟨t, rfl⟩
    rw [bs_parse_streaming, findSync_skip g t hg]
    show bsProcessFrom (List.drop g.length (g ++ 0xAA :: 0x55 :: t))
      = (.needMoreData, 0xAA :: 0x55 :: t)
    rw [List.drop_left]
    exact hcore

/-- C5 witness: the first 5 bytes of a declared 20-byte frame yield
NeedMoreData with all 5 bytes left unconsumed, with and without a
preceding noise byte. -/
theorem c5_witness :
    bs_parse_streaming [0xAA, 0x55, 0x01, 0x00, 0x14]
      = (.needMoreData, [0xAA, 0x55, 0x01, 0x00, 0x14])
    ∧ bs_parse_streaming ([0x00] ++ [0xAA, 0x55, 0x01, 0x00, 0x14])
      = (.needMoreData, [0xAA, 0x55, 0x01, 0x00, 0x14]) :=
  ⟨c5_partial_frame_wait.1 [0xAA, 0x55, 0x01, 0x00, 0x14] (by decide) (by decide)
    (Or.inr (by decide)),
   c5_partial_frame_wait.2 [0x00] [0xAA, 0x55, 0x01, 0x00, 0x14] rfl (by decide) (by decide)
    (Or.inr (by decide))⟩

/-- C6 (amended): when the streaming parser hits a validation failure
after a sync pattern was found it consumes only the 2 sync bytes and
resumes scanning; consequently for a stream [valid frame A][frame B with
corrupted CRC][valid frame C], repeated calls yield frame A, surface B's
corruption as one BAD_CRC result, and then still yield frame C —
provided the corrupted frame's remaining bytes contain no spurious
0xAA 0x55 pair (without that proviso a crafted corrupted frame can embed
a validating bogus frame that swallows frame C). -/
theorem c6_corruption_recovery (A B C : List Nat) (fA fC : BsFrame)
    (hA0 : A.getD 0 0 = 0xAA) (hA1 : A.getD 1 0 = 0x55)
    (hALen : A.length = bsDeclaredLen A) (hALo : 9 ≤ bsDeclaredLen A)
    (hAHi : bsDeclaredLen A ≤ 1033)
    (hAok : bs_parse_frame A = .ok fA)
    (hB0 : B.getD 0 0 = 0xAA) (hB1 : B.getD 1 0 = 0x55)
    (hBLen : B.length = bsDeclaredLen B) (hBLo : 9 ≤ bsDeclaredLen B)
    (hBHi : bsDeclaredLen B ≤ 1033)
    (hBbad : bs_parse_frame B = .error BS_ERR_BAD_CRC)
    (hBrec : bsHasSyncPair (B.drop 2) = false)
    (hC0 : C.getD 0 0 = 0xAA) (hC1 : C.getD 1 0 = 0x55)
    (hCLen : C.length = bsDeclaredLen C) (hCLo : 9 ≤ bsDeclaredLen C)
    (hCHi : bsDeclaredLen C ≤ 1033)
    (hCok : bs_parse_frame C = .ok fC) :
    bs_parse_streaming (A ++ (B ++ C)) = (.frame fA, B ++ C)
    ∧ bs_parse_streaming (B ++ C) = (.err BS_ERR_BAD_CRC, B.drop 2 ++ C)
    ∧ bs_parse_streaming (B.drop 2 ++ C) = (.frame fC, []) :=
  ⟨streaming_exact_at_start A (B ++ C) fA hA0 hA1 hALen hALo hAHi hAok,
   streaming_badcrc_at_start B C hB0 hB1 hBLen hBLo hBHi hBbad,
   streaming_skip_exact (B.drop 2) C fC hBrec hC0 hC1 hCLen hCLo hCHi hCok⟩

/-- C6 witness: the three streaming calls on the concrete stream
demoA, demoB (corrupted CRC), demoC. -/
theorem c6_recovery_witness :
    bs_parse_streaming (demoA ++ (demoB ++ demoC)) = (.frame demoFA, demoB ++ demoC)
    ∧ bs_parse_streaming (demoB ++ demoC) = (.err BS_ERR_BAD_CRC, demoB.drop 2 ++ demoC)
    ∧ bs_parse_streaming (demoB.drop 2 ++ demoC) = (.frame demoFC, []) :=
  c6_corruption_recovery demoA demoB demoC demoFA demoFC
    (by decide) (by decide) (by decide) (by decide) (by decide) rfl
    (by decide) (by decide) (by decide) (by decide) (by decide) rfl
    (by decide)
    (by decide) (by decide) (by decide) (by decide) (by decide) rfl

/-- C6 counterexample: with the adversarial corrupted frame `cexB`, the
stream [demoA][cexB][demoC] yields frame A, then BAD_CRC, but the third
call recovers the bogus embedded frame `cexFX` instead of frame C and
consumes the entire remaining stream, so frame C is never yielded —
refuting the unconditional claim. -/
theorem c6_embedded_sync_counterexample :
    bs_validate_frame cexB = BS_ERR_BAD_CRC
    ∧ cexB.length = bsDeclaredLen cexB
    ∧ bs_validate_frame demoA = BS_SUCCESS
    ∧ bs_validate_frame demoC = BS_SUCCESS
    ∧ bs_parse_streaming (demoA ++ (cexB ++ demoC)) = (.frame demoFA, cexB ++ demoC)
    ∧ bs_parse_streaming (cexB ++ demoC) = (.err BS_ERR_BAD_CRC, cexB.drop 2 ++ demoC)
    ∧ bs_parse_streaming (cexB.drop 2 ++ demoC) = (.frame cexFX, [])
    ∧ cexFX ≠ demoFC
    ∧ bs_parse_streaming ([] : List Nat) = (.needMoreData, []) := by
  decide

/-! ## Helper lemmas: the ring buffer -/

lemma getD_set_self (l : List Nat) (i b : Nat) (h : i < l.length) : (l.set i b).getD i 0 = b := by
  simp [List.getD, List.getElem?_set_self, h]

lemma getD_set_ne (l : List Nat) (i j b : Nat) (h : i ≠ j) :
    (l.set i b).getD j 0 = l.getD j 0 := by
  simp [List.getD, List.getElem?_set_ne h]

lemma getD_take_of_lt (l : List Nat) (n j : Nat) (h : j < n) :
    (l.take n).getD j 0 = l.getD j 0 := by
  simp [List.getD, List.getElem?_take_of_lt h]

lemma mod_index_inj (size base i j : Nat) (hi : i < size) (hj : j < size)
    (h : (base + i) % size = (base + j) % size) : i = j := by
  have h2 : i % size = j % size := Nat.ModEq.add_left_cancel' base h
  rw [Nat.mod_eq_of_lt hi, Nat.mod_eq_of_lt hj] at h2
  exact h2
lemma bsWriteLoop_length (size : Nat) (data : List Nat) :
    ∀ (buf : List Nat) (pos : Nat), (bsWriteLoop buf size pos data).length = buf.length := by
  induction data with
  | nil => intro buf pos; rfl
  | cons b rest ih =>
    intro buf pos
    rw [bsWriteLoop, ih, List.length_set]

lemma bsWriteLoop_untouched (size : Nat) (hsize : 0 < size) (data : List Nat) :
    ∀ (buf : List Nat) (pos q : Nat), pos < size →
      (∀ j, j < data.length → (pos + j) % size ≠ q) →
      (bsWriteLoop buf size pos data).getD q 0 = buf.getD q 0 := by
  induction data with
  | nil => intro buf pos q _ _; rfl
  | cons b rest ih =>
    intro buf pos q hpos hq
    rw [bsWriteLoop]
    rw [ih (buf.set pos b) ((pos + 1) % size) q (Nat.mod_lt _ hsize) ?_]
    · apply getD_set_ne
      have h0 := hq 0 (by simp)
      rw [Nat.add_zero, Nat.mod_eq_of_lt hpos] at h0
      exact h0
    · intro j hj
      rw [Nat.mod_add_mod]
      rw [show pos + 1 + j = pos + (1 + j) by omega]
      exact hq (1 + j) (by simp; omega)

lemma bsWriteLoop_hit (size : Nat) (hsize : 0 < size) (data : List Nat) :
    ∀ (buf : List Nat) (pos j : Nat), buf.length = size → pos < size →
      data.length ≤ size → j < data.length →
      (bsWriteLoop buf size pos data).getD ((pos + j) % size) 0 = data.getD j 0 := by
  induction data with
  | nil => intro buf pos j _ _ _ hj; simp at hj
  | cons b rest ih =>
    intro buf pos j hbuf hpos hds hj
    rw [bsWriteLoop]
    cases j with
    | zero =>
      simp only [Nat.add_zero, Nat.mod_eq_of_lt hpos]
      rw [bsWriteLoop_untouched size hsize rest (buf.set pos b) ((pos + 1) % size) pos
            (Nat.mod_lt _ hsize) ?_]
      · exact getD_set_self buf pos b (by omega)
      · intro i hi
        rw [Nat.mod_add_mod]
        intro hcontra
        have hlt : 1 + i < size := by simp at hds; omega
        have : 1 + i = 0 := by
          apply mod_index_inj size pos (1 + i) 0 hlt hsize
          rw [show pos + (1 + i) = pos + 1 + i by omega, hcontra, Nat.add_zero,
            Nat.mod_eq_of_lt hpos]
        omega
    | succ j' =>
      rw [show (pos + (j' + 1)) % size = ((pos + 1) % size + j') % size from by
        rw [Nat.mod_add_mod]; congr 1; omega]
      rw [List.getD_cons_succ]
      exact ih (buf.set pos b) ((pos + 1) % size) j' (by rw [List.length_set, hbuf])
        (Nat.mod_lt _ hsize) (by simp at hds; omega) (by simp at hj; omega)

lemma range_map_getD (l : List Nat) :
    (List.range l.length).map (fun j => l.getD j 0) = l := by
  induction l with
  | nil => rfl
  | cons b t ih =>
    rw [List.length_cons, List.range_succ_eq_map]
    rw [List.map_cons, List.map_map]
    rw [show ((fun j => (b :: t).getD j 0) ∘ Nat.succ) = (fun j => t.getD j 0) from rfl]
    rw [ih]
    rfl

lemma write_spec (rb : BsRingbuf) (data : List Nat) (h : rb.WF) :
    (bs_ringbuf_write rb data).1 = min data.length (bs_ringbuf_free rb)
    ∧ ((bs_ringbuf_write rb data).2).WF
    ∧ (bs_ringbuf_write rb data).2.size = rb.size
    ∧ (bs_ringbuf_write rb data).2.toList
        = rb.toList ++ data.take (min data.length (bs_ringbuf_free rb))
    ∧ ∀ i, i < rb.count →
        (bs_ringbuf_write rb data).2.buffer.getD ((rb.tail + i) % rb.size) 0
          = rb.buffer.getD ((rb.tail + i) % rb.size) 0 := by
  obtain ⟨hbuf, hsz, hhead, htail, hcnt, heq⟩ := h
  set n := min data.length (rb.size - rb.count) with hn
  have hn1 : n ≤ data.length := Nat.min_le_left _ _
  have hn2 : n ≤ rb.size - rb.count := Nat.min_le_right _ _
  have htn : (data.take n).length = n := by rw [List.length_take]; omega
  have huntouched : ∀ i, i < rb.count →
      (bsWriteLoop rb.buffer rb.size rb.head (data.take n)).getD ((rb.tail + i) % rb.size) 0
        = rb.buffer.getD ((rb.tail + i) % rb.size) 0 := by
    intro i hi
    apply bsWriteLoop_untouched rb.size hsz (data.take n) rb.buffer rb.head _ hhead
    intro j hj
    rw [htn] at hj
    rw [heq, Nat.mod_add_mod]
    rw [show rb.tail + rb.count + j = rb.tail + (rb.count + j) by omega]
    intro hcontra
    have : rb.count + j = i :=
      mod_index_inj rb.size rb.tail _ _ (by omega) (by omega) hcontra
    omega
  have hhit : ∀ j, j < n →
      (bsWriteLoop rb.buffer rb.size rb.head (data.take n)).getD ((rb.head + j) % rb.size) 0
        = data.getD j 0 := by
    intro j hj
    rw [← getD_take_of_lt data n j hj]
    exact bsWriteLoop_hit rb.size hsz (data.take n) rb.buffer rb.head j hbuf hhead
      (by omega) (by omega)
  have hstep : ∀ j : Nat, (rb.tail + (rb.count + j)) % rb.size = (rb.head + j) % rb.size := by
    intro j
    rw [heq, Nat.mod_add_mod]
    congr 1
    omega
  have htake_eq : (List.range n).map (fun j => data.getD j 0) = data.take n := by
    have hbase := range_map_getD (data.take n)
    rw [htn] at hbase
    rw [← hbase]
    apply List.map_congr_left
    intro j hj
    rw [List.mem_range] at hj
    exact (getD_take_of_lt data n j hj).symm
  refine ⟨rfl, ⟨?_, hsz, Nat.mod_lt _ hsz, htail, by simp [bs_ringbuf_write]; omega, ?_⟩, rfl,
    ?_, huntouched⟩
  · simp only [bs_ringbuf_write]
    rw [bsWriteLoop_length, hbuf]
  · simp only [bs_ringbuf_write]
    rw [heq, Nat.mod_add_mod]
    congr 1
    omega
  · simp only [bs_ringbuf_write, BsRingbuf.toList, bs_ringbuf_free, ← hn]
    rw [List.range_add, List.map_append]
    congr 1
    · apply List.map_congr_left
      intro i hi
      rw [List.mem_range] at hi
      exact huntouched i hi
    · rw [List.map_map]
      conv_rhs => rw [← htake_eq]
      apply List.map_congr_left
      intro j hj
      rw [List.mem_range] at hj
      simp only [Function.comp]
      rw [hstep j, hhit j hj]

lemma read_spec (rb : BsRingbuf) (k : Nat) (h : rb.WF) :
    (bs_ringbuf_read rb k).1 = rb.toList.take (min k rb.count)
    ∧ ((bs_ringbuf_read rb k).2).WF
    ∧ (bs_ringbuf_read rb k).2.size = rb.size
    ∧ (bs_ringbuf_read rb k).2.toList = rb.toList.drop (min k rb.count) := by
  obtain ⟨hbuf, hsz, hhead, htail, hcnt, heq⟩ := h
  set n := min k rb.count with hn
  have hn2 : n ≤ rb.count := Nat.min_le_right _ _
  refine ⟨?_, ⟨hbuf, hsz, hhead, Nat.mod_lt _ hsz, by simp [bs_ringbuf_read]; omega, ?_⟩, rfl, ?_⟩
  · rw [BsRingbuf.toList, ← List.map_take, List.take_range, Nat.min_eq_left hn2]
    rfl
  · simp only [bs_ringbuf_read]
    rw [Nat.mod_add_mod, show rb.tail + n + (rb.count - n) = rb.tail + rb.count by omega]
    exact heq
  · simp only [bs_ringbuf_read, BsRingbuf.toList]
    conv_rhs => rw [show rb.count = n + (rb.count - n) by omega]
    rw [List.range_add, List.map_append, List.drop_append_of_le_length (by simp)]
    rw [show ((List.range n).map
          (fun i => rb.buffer.getD ((rb.tail + i) % rb.size) 0)).drop n = [] from by simp]
    rw [List.nil_append, List.map_map]
    apply List.map_congr_left
    intro i hi
    simp only [Function.comp]
    rw [Nat.mod_add_mod]
    congr 2
    omega

lemma runOps_wf (ops : List RbOp) :
    ∀ rb : BsRingbuf, rb.WF → (runOps rb ops).1.WF ∧ (runOps rb ops).1.size = rb.size := by
  induction ops with
  | nil => intro rb h; exact ⟨h, rfl⟩
  | cons op rest ih =>
    intro rb h
    cases op with
    | write data =>
      obtain ⟨_, hwf, hsz, _, _⟩ := write_spec rb data h
      have := ih (bs_ringbuf_write rb data).2 hwf
      rw [runOps]
      exact ⟨this.1, by rw [this.2, hsz]⟩
    | read k =>
      obtain ⟨_, hwf, hsz, _⟩ := read_spec rb k h
      have := ih (bs_ringbuf_read rb k).2 hwf
      rw [runOps]
      exact ⟨this.1, by rw [this.2, hsz]⟩

lemma runOps_fifo (ops : List RbOp) :
    ∀ rb : BsRingbuf, rb.WF →
      (runOps rb ops).2.2 ++ (runOps rb ops).1.toList
        = rb.toList ++ (runOps rb ops).2.1 := by
  induction ops with
  | nil => intro rb _; simp [runOps]
  | cons op rest ih =>
    intro rb h
    cases op with
    | write data =>
      obtain ⟨hcount, hwf, hsz, htl, _⟩ := write_spec rb data h
      have ihw := ih (bs_ringbuf_write rb data).2 hwf
      rw [runOps]
      simp only []
      rw [ihw, htl, hcount]
      rw [List.append_assoc]
    | read k =>
      obtain ⟨hbytes, hwf, hsz, htl⟩ := read_spec rb k h
      have ihr := ih (bs_ringbuf_read rb k).2 hwf
      rw [runOps]
      simp only []
      rw [List.append_assoc, ihr, htl, hbytes, ← List.append_assoc,
        List.take_append_drop]

theorem c7_write_non_destructive (rb : BsRingbuf) (data : List Nat) (h : rb.WF) :
    (bs_ringbuf_write rb data).1 = min data.length (bs_ringbuf_free rb)
    ∧ (bs_ringbuf_write rb data).2.toList
        = rb.toList ++ data.take (min data.length (bs_ringbuf_free rb))
    ∧ ∀ i, i < rb.count →
        (bs_ringbuf_write rb data).2.buffer.getD ((rb.tail + i) % rb.size) 0
          = rb.buffer.getD ((rb.tail + i) % rb.size) 0 := by
  obtain ⟨h1, _, _, h4, h5⟩ := write_spec rb data h
  exact ⟨h1, h4, h5⟩

theorem c7_witness :
    (bs_ringbuf_write rbDemo1 [5, 6]).1 = 2
    ∧ (bs_ringbuf_write rbDemo1 [5, 6]).2.toList = rbDemo1.toList ++ [5, 6] :=
  ⟨((c7_write_non_destructive rbDemo1 [5, 6] (by decide)).1).trans (by decide),
   ((c7_write_non_destructive rbDemo1 [5, 6] (by decide)).2.1).trans (by decide)⟩

theorem c8_conservation_fifo (ops : List RbOp) (rb0 : BsRingbuf) (h : rb0.WF) :
    (∀ pre : List RbOp,
      bs_ringbuf_available (runOps rb0 pre).1 + bs_ringbuf_free (runOps rb0 pre).1
        = rb0.size)
    ∧ (runOps rb0 ops).2.2 ++ (runOps rb0 ops).1.toList
        = rb0.toList ++ (runOps rb0 ops).2.1 := by
  constructor
  · intro pre
    obtain ⟨⟨_, _, _, _, hcnt, _⟩, hsz⟩ := runOps_wf pre rb0 h
    rw [bs_ringbuf_available, bs_ringbuf_free, hsz]
    rw [hsz] at hcnt
    omega
  · exact runOps_fifo ops rb0 h

theorem c8_witness :
    bs_ringbuf_available (runOps rbDemo0 [RbOp.write [1, 2, 3]]).1
        + bs_ringbuf_free (runOps rbDemo0 [RbOp.write [1, 2, 3]]).1 = rbDemo0.size
    ∧ (runOps rbDemo0 [RbOp.write [1, 2, 3], RbOp.read 2]).2.2
        ++ (runOps rbDemo0 [RbOp.write [1, 2, 3], RbOp.read 2]).1.toList
      = rbDemo0.toList ++ (runOps rbDemo0 [RbOp.write [1, 2, 3], RbOp.read 2]).2.1 :=
  ⟨(c8_conservation_fifo [RbOp.write [1, 2, 3], RbOp.read 2] rbDemo0 (by decide)).1
      [RbOp.write [1, 2, 3]],
   (c8_conservation_fifo [RbOp.write [1, 2, 3], RbOp.read 2] rbDemo0 (by decide)).2⟩

theorem c10_count_field :
    (∀ rb : BsRingbuf, bs_ringbuf_available rb = rb.count)
    ∧ (∀ (rb : BsRingbuf) (data : List Nat), rb.count ≤ rb.size →
        (bs_ringbuf_write rb data).2.count ≤ (bs_ringbuf_write rb data).2.size)
    ∧ (∀ (rb : BsRingbuf) (k : Nat), rb.count ≤ rb.size →
        (bs_ringbuf_read rb k).2.count ≤ (bs_ringbuf_read rb k).2.size)
    ∧ rbDemo0.head = rbDemo0.tail
    ∧ bs_ringbuf_available rbDemo0 = 0
    ∧ (bs_ringbuf_write rbDemo0 [1, 2, 3, 4]).1 = 4
    ∧ (bs_ringbuf_write rbDemo0 [1, 2, 3, 4]).2.head
        = (bs_ringbuf_write rbDemo0 [1, 2, 3, 4]).2.tail
    ∧ bs_ringbuf_available (bs_ringbuf_write rbDemo0 [1, 2, 3, 4]).2
        = (bs_ringbuf_write rbDemo0 [1, 2, 3, 4]).2.size := by
  refine ⟨fun rb => rfl, ?_, ?_, by decide, by decide, by decide, by decide, by decide⟩
  · intro rb data h
    simp [bs_ringbuf_write]
    omega
  · intro rb k h
    simp [bs_ringbuf_read]
    omega

theorem c10_witness :
    bs_ringbuf_available rbDemo1 = rbDemo1.count
    ∧ (bs_ringbuf_write rbDemo1 [7]).2.count ≤ (bs_ringbuf_write rbDemo1 [7]).2.size
    ∧ (bs_ringbuf_read rbDemo1 1).2.count ≤ (bs_ringbuf_read rbDemo1 1).2.size :=
  ⟨c10_count_field.1 rbDemo1,
   c10_count_field.2.1 rbDemo1 [7] (by decide),
   c10_count_field.2.2.1 rbDemo1 1 (by decide)⟩
